import Mathlib

/-!
Verification of the VideoAgent brief-generation pipeline.

This file gives a shallow embedding, in Lean 4, of the parts of the
repository that the claims C1..C10 are about:

* `src/app/summarize.py` — the deterministic summary generator `_dummy`,
  the Gemini-backend response handling of `summarize` (code-fence
  stripping and the `_parse_with_repair` chain), and the index handling
  of `select_topics_with_ai`;
* `src/app/main.py` — the history-filtering block and the selection-pool
  indexing of `run_once`;
* `src/app/translate.py` — `translate_bundle` (batched index maps,
  map-back, per-field fallback) both as pure value functions and as a
  heap-passing model for the no-mutation claim;
* `src/app/utils.py` — `cleanup_old_outputs`;
* `src/app/captions.py` — `_fmt_time` and `write_srt`.

Python strings are modelled as lists of Unicode code points (`PyStr`),
so that the latin-1/UTF-8 re-decoding steps of the repair chain can be
modelled faithfully at the byte level.  `json.loads` is modelled by a
strict fuel-based recursive-descent parser over code points following
the JSON grammar accepted by Python's `json` module (object / array /
string with escapes / number / true / false / null, with the four JSON
whitespace characters); floats are modelled as rationals.
-/

/-- A Python `str`: a list of Unicode code points. -/
abbrev PyStr := List Nat

/-- Embed a Lean string literal as a `PyStr`. -/
def pstr (s : String) : PyStr := s.data.map Char.toNat

/-- Python `s.encode('latin-1')` : every code point must be ≤ 255,
otherwise a `UnicodeEncodeError` is raised (modelled as `none`). -/
def latin1Encode (s : PyStr) : Option (List Nat) :=
  if s.all (fun c => c ≤ 255) then some s else none

/-- Python `bytes.decode('latin-1')` : each byte becomes the code point
of the same value; never fails. -/
def latin1Decode (bs : List Nat) : PyStr := bs

/-- One code point encoded to UTF-8 bytes, with Python's
`errors='replace'` policy: an unencodable surrogate code point becomes
`b"?"` (byte 0x3F). -/
def utf8EncodeChar (c : Nat) : List Nat :=
  if c < 0x80 then [c]
  else if c < 0x800 then [0xC0 + c / 64, 0x80 + c % 64]
  else if 0xD800 ≤ c ∧ c ≤ 0xDFFF then [0x3F]
  else if c < 0x10000 then
    [0xE0 + c / 4096, 0x80 + (c / 64) % 64, 0x80 + c % 64]
  else
    [0xF0 + c / 262144, 0x80 + (c / 4096) % 64, 0x80 + (c / 64) % 64,
     0x80 + c % 64]

/-- Python `s.encode('utf-8', errors='replace')`. -/
def utf8EncodeReplace (s : PyStr) : List Nat :=
  s.flatMap utf8EncodeChar

/-- Is `b` a UTF-8 continuation byte (`0x80..0xBF`)? -/
def isCont (b : Nat) : Bool := 0x80 ≤ b && b ≤ 0xBF

/-- Strict UTF-8 decoding of a byte list (Python
`bytes.decode('utf-8')`), rejecting truncated sequences, bad
continuation bytes, overlong forms, surrogates and values above
U+10FFFF; `none` models a raised `UnicodeDecodeError`.  The first
argument is fuel (any value ≥ the list length works). -/
def utf8DecodeAux : Nat → List Nat → Option PyStr
  | 0, [] => some []
  | 0, _ :: _ => none
  | _ + 1, [] => some []
  | fuel + 1, b :: rest =>
    if b < 0x80 then
      (utf8DecodeAux fuel rest).map (b :: ·)
    else if 0xC2 ≤ b ∧ b ≤ 0xDF then
      match rest with
      | b2 :: rest2 =>
        if isCont b2 then
          (utf8DecodeAux fuel rest2).map (fun t => ((b - 0xC0) * 64 + (b2 - 0x80)) :: t)
        else none
      | _ => none
    else if 0xE0 ≤ b ∧ b ≤ 0xEF then
      match rest with
      | b2 :: b3 :: rest3 =>
        let okB2 : Bool :=
          if b = 0xE0 then 0xA0 ≤ b2 && b2 ≤ 0xBF
          else if b = 0xED then 0x80 ≤ b2 && b2 ≤ 0x9F
          else isCont b2
        if okB2 && isCont b3 then
          (utf8DecodeAux fuel rest3).map
            (fun t => ((b - 0xE0) * 4096 + (b2 - 0x80) * 64 + (b3 - 0x80)) :: t)
        else none
      | _ => none
    else if 0xF0 ≤ b ∧ b ≤ 0xF4 then
      match rest with
      | b2 :: b3 :: b4 :: rest4 =>
        let okB2 : Bool :=
          if b = 0xF0 then 0x90 ≤ b2 && b2 ≤ 0xBF
          else if b = 0xF4 then 0x80 ≤ b2 && b2 ≤ 0x8F
          else isCont b2
        if okB2 && isCont b3 && isCont b4 then
          (utf8DecodeAux fuel rest4).map
            (fun t => ((b - 0xF0) * 262144 + (b2 - 0x80) * 4096 + (b3 - 0x80) * 64 +
              (b4 - 0x80)) :: t)
        else none
      | _ => none
    else none

/-- Python `bytes.decode('utf-8')` (strict). -/
def utf8Decode (bs : List Nat) : Option PyStr :=
  utf8DecodeAux bs.length bs

/-! ## A model of `json.loads` -/

/-- A parsed JSON number: the exact rational `mantissa / den` (`den` a
power of ten), together with whether the token was a Python `int`
(no fraction part and no exponent) or a `float`. -/
structure JNum where
  mantissa : Int
  den : Nat
  isInt : Bool
deriving DecidableEq, Repr

/-- JSON values as produced by Python's `json.loads`. -/
inductive Json where
  | null : Json
  | bool (b : Bool) : Json
  | num (j : JNum) : Json
  | str (s : PyStr) : Json
  | arr (xs : List Json) : Json
  | obj (kvs : List (PyStr × Json)) : Json

/-- The four JSON whitespace code points accepted between tokens. -/
def isJsonWs (c : Nat) : Bool := c = 32 || c = 9 || c = 10 || c = 13

/-- Skip leading JSON whitespace. -/
def skipWs (s : PyStr) : PyStr := s.dropWhile isJsonWs

/-- Is `c` an ASCII digit code point? -/
def isDigitCp (c : Nat) : Bool := 48 ≤ c && c ≤ 57

/-- Digits of `s`'s longest digit prefix, as a natural number together
with how many digits were consumed; `none` when there is no digit. -/
def takeDigits (s : PyStr) : Option (Nat × Nat × PyStr) :=
  let ds := s.takeWhile isDigitCp
  if ds.isEmpty then none
  else some (ds.foldl (fun acc c => acc * 10 + (c - 48)) 0, ds.length, s.drop ds.length)

/-- Parse a JSON number per the grammar `-?(0|[1-9][0-9]*)(\.[0-9]+)?([eE][+-]?[0-9]+)?`,
returning its exact value and the remaining input. -/
def parseNumber (s : PyStr) : Option (JNum × PyStr) :=
  let (neg, s1) :=
    match s with
    | 45 :: rest => (true, rest)  -- '-'
    | _ => (false, s)
  match takeDigits s1 with
  | none => none
  | some (ip, ilen, s2) =>
    -- a leading zero may not be followed by further digits
    if ilen > 1 ∧ s1.headD 0 = 48 then none
    else
      match s2 with
      | 46 :: rest =>  -- '.'
        match takeDigits rest with
        | some (fp, flen, rest2) =>
          finishNumber neg (ip * 10 ^ flen + fp) ((10 : Nat) ^ flen) false rest2
        | none => none  -- '.' with no digits is an error
      | _ => finishNumber neg ip 1 true s2
where
  /-- Handle the optional exponent and assemble the value. -/
  finishNumber (neg : Bool) (m den : Nat) (isInt : Bool) (s : PyStr) :
      Option (JNum × PyStr) :=
    match s with
    | e :: rest =>
      if e = 101 ∨ e = 69 then  -- 'e' | 'E'
        let (eneg, rest1) :=
          match rest with
          | 45 :: r => (true, r)   -- '-'
          | 43 :: r => (false, r)  -- '+'
          | _ => (false, rest)
        match takeDigits rest1 with
        | some (ev, _, rest2) =>
          if eneg then
            some ({ mantissa := if neg then -(m : Int) else m,
                    den := den * 10 ^ ev, isInt := false }, rest2)
          else
            some ({ mantissa := if neg then -((m * 10 ^ ev : Nat) : Int) else (m * 10 ^ ev : Nat),
                    den := den, isInt := false }, rest2)
        | none => none
      else some ({ mantissa := if neg then -(m : Int) else m, den := den, isInt := isInt }, e :: rest)
    | [] => some ({ mantissa := if neg then -(m : Int) else m, den := den, isInt := isInt }, [])

/-- Parse the value of a `\uXXXX` escape: four hex digits. -/
def parseHex4 (s : PyStr) : Option (Nat × PyStr) :=
  match s with
  | a :: b :: c :: d :: rest =>
    let hv (x : Nat) : Option Nat :=
      if 48 ≤ x ∧ x ≤ 57 then some (x - 48)
      else if 97 ≤ x ∧ x ≤ 102 then some (x - 87)
      else if 65 ≤ x ∧ x ≤ 70 then some (x - 55)
      else none
    match hv a, hv b, hv c, hv d with
    | some ha, some hb, some hc, some hd =>
      some (ha * 4096 + hb * 256 + hc * 16 + hd, rest)
    | _, _, _, _ => none
  | _ => none

/-- Parse the body of a JSON string after the opening quote, handling
the escape sequences `\" \\ \/ \b \f \n \r \t \uXXXX`; a raw control
character below 0x20 is rejected (Python's default `strict=True`). -/
def parseStringBody : Nat → PyStr → Option (PyStr × PyStr)
  | 0, _ => none
  | _ + 1, [] => none
  | fuel + 1, c :: rest =>
    if c = 34 then some ([], rest)  -- closing '"'
    else if c = 92 then  -- backslash
      match rest with
      | [] => none
      | e :: rest2 =>
        let simple : Option Nat :=
          if e = 34 then some 34
          else if e = 92 then some 92
          else if e = 47 then some 47
          else if e = 98 then some 8
          else if e = 102 then some 12
          else if e = 110 then some 10
          else if e = 114 then some 13
          else if e = 116 then some 9
          else none
        match simple with
        | some v => (parseStringBody fuel rest2).map (fun (body, rem) => (v :: body, rem))
        | none =>
          if e = 117 then  -- 'u'
            match parseHex4 rest2 with
            | some (v, rest3) =>
              (parseStringBody fuel rest3).map (fun (body, rem) => (v :: body, rem))
            | none => none
          else none
    else if c < 32 then none
    else (parseStringBody fuel rest).map (fun (body, rem) => (c :: body, rem))

mutual

/-- Parse one JSON value. -/
def parseVal : Nat → PyStr → Option (Json × PyStr)
  | 0, _ => none
  | fuel + 1, s =>
    match skipWs s with
    | [] => none
    | c :: rest =>
      if c = 123 then  -- opening brace
        parseObjRest fuel rest
      else if c = 91 then  -- '['
        parseArrRest fuel rest
      else if c = 34 then  -- '"'
        (parseStringBody (rest.length + 1) rest).map (fun (b, rem) => (Json.str b, rem))
      else if c = 116 ∧ rest.take 3 = [114, 117, 101] then  -- true
        some (Json.bool true, rest.drop 3)
      else if c = 102 ∧ rest.take 4 = [97, 108, 115, 101] then  -- false
        some (Json.bool false, rest.drop 4)
      else if c = 110 ∧ rest.take 3 = [117, 108, 108] then  -- null
        some (Json.null, rest.drop 3)
      else
        (parseNumber (c :: rest)).map (fun (j, rem) => (Json.num j, rem))

/-- Parse the rest of an object after the opening brace. -/
def parseObjRest : Nat → PyStr → Option (Json × PyStr)
  | 0, _ => none
  | fuel + 1, s =>
    match skipWs s with
    | 125 :: rest => some (Json.obj [], rest)  -- closing brace
    | s1 =>
      match parseMembers fuel s1 with
      | some (kvs, rem) => some (Json.obj kvs, rem)
      | none => none

/-- Parse one or more `"key": value` members followed by the closing
brace. -/
def parseMembers : Nat → PyStr → Option (List (PyStr × Json) × PyStr)
  | 0, _ => none
  | fuel + 1, s =>
    match skipWs s with
    | 34 :: rest =>  -- '"'
      match parseStringBody (rest.length + 1) rest with
      | some (key, rest2) =>
        match skipWs rest2 with
        | 58 :: rest3 =>  -- ':'
          match parseVal fuel rest3 with
          | some (v, rest4) =>
            match skipWs rest4 with
            | 44 :: rest5 =>  -- ','
              (parseMembers fuel rest5).map (fun (kvs, rem) => ((key, v) :: kvs, rem))
            | 125 :: rest5 => some ([(key, v)], rest5)  -- closing brace
            | _ => none
          | none => none
        | _ => none
      | none => none
    | _ => none

/-- Parse the rest of an array after `'['`. -/
def parseArrRest : Nat → PyStr → Option (Json × PyStr)
  | 0, _ => none
  | fuel + 1, s =>
    match skipWs s with
    | 93 :: rest => some (Json.arr [], rest)  -- ']'
    | s1 =>
      match parseElements fuel s1 with
      | some (xs, rem) => some (Json.arr xs, rem)
      | none => none

/-- Parse one or more array elements followed by `']'`. -/
def parseElements : Nat → PyStr → Option (List Json × PyStr)
  | 0, _ => none
  | fuel + 1, s =>
    match parseVal fuel s with
    | some (v, rest) =>
      match skipWs rest with
      | 44 :: rest2 =>  -- ','
        (parseElements fuel rest2).map (fun (xs, rem) => (v :: xs, rem))
      | 93 :: rest2 => some ([v], rest2)  -- ']'
      | _ => none
    | none => none

end

/-- Python `json.loads`: parse one JSON document and require that only
whitespace remains; `none` models a raised `JSONDecodeError`. -/
def json_loads (s : PyStr) : Option Json :=
  match parseVal (4 * s.length + 8) s with
  | some (v, rest) => if skipWs rest = [] then some v else none
  | none => none

/-! ## Python string helpers -/

/-- Python `str.lower` restricted to ASCII letters (the source names the
code compares are ASCII). -/
def pyLower (s : PyStr) : PyStr :=
  s.map (fun c => if 65 ≤ c ∧ c ≤ 90 then c + 32 else c)

/-- Is `p` a prefix of `s` (by element equality)? -/
def listPrefixOf : PyStr → PyStr → Bool
  | [], _ => true
  | _ :: _, [] => false
  | a :: as, b :: bs => a = b && listPrefixOf as bs

/-- Python `sub in s` for strings: substring containment. -/
def pyContains (s sub : PyStr) : Bool :=
  (List.range (s.length + 1)).any (fun i => listPrefixOf sub (s.drop i))

/-- Decimal digits of a natural number, as a `PyStr`. -/
def natStr (n : Nat) : PyStr := (Nat.toDigits 10 n).map Char.toNat

/-- Python whitespace stripped by `str.strip()` (ASCII part). -/
def isPySpace (c : Nat) : Bool :=
  c = 32 || c = 9 || c = 10 || c = 13 || c = 11 || c = 12

/-- Python `str.strip()`. -/
def pyStrip (s : PyStr) : PyStr :=
  ((s.dropWhile isPySpace).reverse.dropWhile isPySpace).reverse

/-- Python `s.startswith(p)`. -/
def pyStartsWith (s p : PyStr) : Bool := listPrefixOf p s

/-- Python `s.endswith(p)`. -/
def pyEndsWith (s p : PyStr) : Bool := listPrefixOf p.reverse s.reverse

/-- First index of code point `c` in `s`, starting the count at `i`. -/
def pyFindAux : PyStr → Nat → Nat → Option Nat
  | [], _, _ => none
  | x :: xs, c, i => if x = c then some i else pyFindAux xs c (i + 1)

/-- Python `s.find(c)` for a single-character needle: index of the first
occurrence, or `none` (Python returns `-1`). -/
def pyFind (s : PyStr) (c : Nat) : Option Nat := pyFindAux s c 0

/-- Python `s.rfind(c)` for a single-character needle. -/
def pyRfind (s : PyStr) (c : Nat) : Option Nat :=
  match pyFindAux s.reverse c 0 with
  | some j => some (s.length - 1 - j)
  | none => none

/-! ## The data model (`multi_source_fetch.Topic` and the bundle dicts) -/

/-- The `Topic` dataclass of `src/app/multi_source_fetch.py` (the shape
that reaches `summarize`); the `comments` list is irrelevant to the
claims and omitted. -/
structure Topic where
  title : PyStr
  url : PyStr
  score : Option Int := none
  excerpt : PyStr := []
  source : PyStr := pstr "unknown"
  comments_count : Int := 0
  author : PyStr := []
  content : PyStr := []
deriving DecidableEq, Repr

/-- One entry of the bundle's `topics` list as built by `_dummy`
(`summary` for monolingual output, `summary_en`/`summary_zh` for
bilingual; an absent dict key is `none`). -/
structure TopicEntry where
  title : PyStr
  source : PyStr
  url : Option PyStr
  key_points : List PyStr
  summary : Option PyStr := none
  summary_en : Option PyStr := none
  summary_zh : Option PyStr := none
deriving DecidableEq, Repr

/-- One caption dict `{start_s, end_s, text}`; the float seconds are
modelled as rationals (the generator only produces exact multiples of
8.0, which binary floats represent exactly). -/
structure Caption where
  start_s : ℚ
  end_s : ℚ
  text : PyStr
deriving DecidableEq, Repr

/-- The summarization bundle dict (`narration_zh` is `none` when the
key is absent). -/
structure Bundle where
  topics : List TopicEntry
  narration : PyStr
  captions : List Caption
  hashtags : List PyStr
  narration_zh : Option PyStr := none
deriving DecidableEq, Repr

/-! ## `_dummy` (src/app/summarize.py, lines 174-261) -/

/-- The Chinese-source test of `_dummy`:
`'China' in tp.source or 'chinanews' in tp.source.lower()`. -/
def isChineseSource (tp : Topic) : Bool :=
  pyContains tp.source (pstr "China") || pyContains (pyLower tp.source) (pstr "chinanews")

/-- `content_preview` of `_dummy`: the first 300 chars of `content`
when non-empty, else the first 200 chars of `excerpt`, else empty. -/
def contentPreview (tp : Topic) : PyStr :=
  if tp.content ≠ [] then tp.content.take 300
  else if tp.excerpt ≠ [] then tp.excerpt.take 200
  else []

/-- The per-topic `summary` string of `_dummy`. -/
def dummySummary (tp : Topic) : PyStr :=
  let cp := contentPreview tp
  if isChineseSource tp then
    if cp ≠ [] then tp.title ++ pstr "。文章内容：" ++ cp ++ pstr "..."
    else tp.title ++ pstr "。"
  else
    if cp ≠ [] then tp.title ++ pstr ". Article preview: " ++ cp ++ pstr "..."
    else tp.title ++ pstr "."

/-- The `entry` dict that `_dummy` appends to `out_topics` for `tp`. -/
def dummyEntry (tp : Topic) (include_chinese : Bool) : TopicEntry :=
  let summary := dummySummary tp
  let base : TopicEntry :=
    { title := tp.title
      source := tp.source
      url := some tp.url
      key_points := [pstr "Based on article content"] }
  if include_chinese then
    if isChineseSource tp then
      { base with
        summary_zh := some summary
        summary_en := some (if contentPreview tp = [] then tp.title
          else tp.title ++ pstr ". " ++ (contentPreview tp).take 150 ++ pstr "...") }
    else
      { base with summary_en := some summary, summary_zh := some summary }
  else
    { base with summary := some summary }

/-- The loop body of `_dummy`, carried out over the topic list:
`topic_counter` starts at 1 and `t` at 0.0, advancing by `seg = 8.0`
per topic.  Returns the `out_topics`, `narration_parts` and `captions`
accumulators. -/
def dummyLoop : List Topic → Bool → Nat → ℚ →
    List TopicEntry × List PyStr × List Caption
  | [], _, _, _ => ([], [], [])
  | tp :: rest, ic, counter, t =>
    let r := dummyLoop rest ic (counter + 1) (t + 8)
    (dummyEntry tp ic :: r.1,
     (natStr counter ++ pstr ". " ++ tp.title ++ pstr ": " ++
       dummySummary tp ++ pstr "\n\n") :: r.2.1,
     ({ start_s := t, end_s := t + 8,
        text := natStr counter ++ pstr ". " ++ tp.title.take 50 ++ pstr "..." } : Caption) :: r.2.2)

/-- The `narration_zh` string `_dummy` builds when bilingual output is
requested and some entry carries `summary_zh`. -/
def dummyNarrationZh (topics : List Topic) (entries : List TopicEntry) : PyStr :=
  ((topics.zip entries).enum.map (fun (i, tp, e) =>
    natStr (i + 1) ++ pstr ". " ++ tp.title ++ pstr ": " ++
      ((e.summary_zh).getD ((e.summary).getD [])) ++ pstr "\n\n")).flatten

/-- `_dummy` (src/app/summarize.py): the deterministic local bundle
generator. -/
def _dummy (topics : List Topic) (include_chinese : Bool := false) : Bundle :=
  let r := dummyLoop topics include_chinese 1 0
  let narration_zh : Option PyStr :=
    if include_chinese then
      if r.1.any (fun e => e.summary_zh.isSome) then
        some (dummyNarrationZh topics r.1)
      else some []
    else none
  { topics := r.1
    narration := r.2.1.flatten
    captions := r.2.2
    hashtags := [pstr "#AI", pstr "#TechNews", pstr "#MachineLearning", pstr "#DailyBrief"]
    narration_zh := narration_zh }

/-! ## Code-fence stripping and `_parse_with_repair`
(src/app/summarize.py, lines 454-511) -/

/-- The fence-stripping step of `summarize` (lines 454-461): drop a
leading ```` ```json ```` or ```` ``` ````, drop a trailing
```` ``` ````, then `strip()`. -/
def cleanFences (content : PyStr) : PyStr :=
  let c1 := if pyStartsWith content (pstr "```json") then content.drop 7 else content
  let c2 := if pyStartsWith c1 (pstr "```") then c1.drop 3 else c1
  let c3 := if pyEndsWith c2 (pstr "```") then c2.take (c2.length - 3) else c2
  pyStrip c3

/-- Repair step (c) of the chain: `raw.encode('latin-1').decode('utf-8')`
then `json.loads`. -/
def mojibakeLatin1Utf8 (raw : PyStr) : Option Json :=
  match latin1Encode raw with
  | some bs =>
    match utf8Decode bs with
    | some s => json_loads s
    | none => none
  | none => none

/-- Repair step (c'): `raw.encode('utf-8', errors='replace').decode('latin-1')`
then `json.loads`; the encode/decode part never fails. -/
def mojibakeUtf8Latin1 (raw : PyStr) : Option Json :=
  json_loads (latin1Decode (utf8EncodeReplace raw))

/-- Repair step (d): the substring between the first `'{'` and the last
`'}'` (`raw[start:end+1]`), provided both exist and `end > start`. -/
def extractBraceSub (raw : PyStr) : Option PyStr :=
  match pyFind raw 123, pyRfind raw 125 with
  | some st, some en => if en > st then some ((raw.drop st).take (en + 1 - st)) else none
  | _, _ => none

/-- `_parse_with_repair` (src/app/summarize.py, lines 463-506): direct
parse, then the two mojibake re-decodes, then brace-substring
extraction; `none` means every step failed (the caller then falls back
to `_dummy`). -/
def _parse_with_repair (raw : PyStr) : Option Json :=
  match json_loads raw with
  | some p => some p
  | none =>
    match mojibakeLatin1Utf8 raw with
    | some p => some p
    | none =>
      match mojibakeUtf8Latin1 raw with
      | some p => some p
      | none =>
        match extractBraceSub raw with
        | some sub => json_loads sub
        | none => none

/-! ## Post-parse normalization and the gemini path of `summarize`
(src/app/summarize.py, lines 512-525) -/

/-- Python falsiness of a JSON value (`not x`). -/
def jsonFalsy : Json → Bool
  | .null => true
  | .bool b => !b
  | .num j => j.mantissa = 0
  | .str s => s.isEmpty
  | .arr xs => xs.isEmpty
  | .obj kvs => kvs.isEmpty

/-- `d.get(key)` on a parsed object (reading the last binding, Python
dicts keeping the last of duplicate JSON keys). -/
def objGet (kvs : List (PyStr × Json)) (key : PyStr) : Option Json :=
  (kvs.reverse.find? (fun kv => kv.1 == key)).map (·.2)

/-- `key in d` on a parsed object. -/
def objHasKey (kvs : List (PyStr × Json)) (key : PyStr) : Bool :=
  kvs.any (fun kv => kv.1 == key)

/-- `d[key] = v` on a parsed object: overwrite the bindings of an
existing key in place, else append. -/
def objSet (kvs : List (PyStr × Json)) (key : PyStr) (v : Json) : List (PyStr × Json) :=
  if objHasKey kvs key then
    kvs.map (fun kv => if kv.1 == key then (kv.1, v) else kv)
  else kvs ++ [(key, v)]

/-- URL backfill (lines 513-517): for each input topic index `i` in
range of `parsed['topics']`, when the i-th output topic has a falsy or
missing `url`, copy the input topic's `url`.  (In Python a non-dict
element would raise; the claims only exercise well-shaped values, and a
non-object element is left unchanged here.) -/
def backfillUrls (topics : List Topic) (parsed : Json) : Json :=
  match parsed with
  | .obj kvs =>
    match objGet kvs (pstr "topics") with
    | some (.arr pt) =>
      let pt' := pt.enum.map (fun (i, tj) =>
        if h : i < topics.length then
          match tj with
          | .obj tkvs =>
            let urlv := objGet tkvs (pstr "url")
            if (match urlv with | none => true | some v => jsonFalsy v) then
              Json.obj (objSet tkvs (pstr "url") (.str (topics.get ⟨i, h⟩).url))
            else Json.obj tkvs
          | other => other
        else tj)
      Json.obj (objSet kvs (pstr "topics") (.arr pt'))
    | _ => parsed
  | _ => parsed

/-- Bilingual normalization (lines 519-524): a topic dict with a
`summary` key but neither `summary_en` nor `summary_zh` gets the single
summary duplicated into both. -/
def bilingualNormalize (parsed : Json) : Json :=
  match parsed with
  | .obj kvs =>
    match objGet kvs (pstr "topics") with
    | some (.arr pt) =>
      let pt' := pt.map (fun tj =>
        match tj with
        | .obj tkvs =>
          match objGet tkvs (pstr "summary") with
          | some sv =>
            if !objHasKey tkvs (pstr "summary_en") && !objHasKey tkvs (pstr "summary_zh") then
              Json.obj (objSet (objSet tkvs (pstr "summary_en") sv) (pstr "summary_zh") sv)
            else Json.obj tkvs
          | none => Json.obj tkvs
        | other => other)
      Json.obj (objSet kvs (pstr "topics") (.arr pt'))
    | _ => parsed
  | _ => parsed

/-- The gemini-backend response handling of `summarize`
(src/app/summarize.py, lines 442-525), as a function of the streamed
raw response text: strip, strip code fences, run `_parse_with_repair`;
on total parse failure return the `_dummy` bundle (`Sum.inr`),
otherwise the backfilled and (when bilingual) normalized parsed JSON
(`Sum.inl`). -/
def summarize_gemini (topics : List Topic) (include_chinese : Bool) (raw : PyStr) :
    Json ⊕ Bundle :=
  let content := pyStrip raw
  let content := cleanFences content
  match _parse_with_repair content with
  | none => Sum.inr (_dummy topics include_chinese)
  | some parsed =>
    let parsed := backfillUrls topics parsed
    let parsed := if include_chinese then bilingualNormalize parsed else parsed
    Sum.inl parsed

/-! ## AI topic selection (src/app/summarize.py, lines 135-169) and the
pool indexing of `run_once` (src/app/main.py, line 158) -/

/-- All-integer reading of a JSON array (the `selected_indices` the
model is asked for); `none` when some element is not a Python `int`.
(In Python a non-int element would instead raise a `TypeError` later,
when `run_once` uses it as a list index; the claims only exercise
integer indices.) -/
def jsonInts (xs : List Json) : Option (List Int) :=
  xs.mapM (fun j =>
    match j with
    | .num j => if j.isInt then some j.mantissa else none
    | _ => none)

/-- The parsed-response handling of `select_topics_with_ai` (gemini
branch, lines 156-163): `result.get("selected_indices", [])` is
returned as-is, with no bounds check.  `none` models the `except`
branch (unparsable response, non-object result, or a non-list /
non-integer `selected_indices`, which would raise further down). -/
def gemini_selected_indices (content : PyStr) : Option (List Int) :=
  match json_loads (cleanFences (pyStrip content)) with
  | some (.obj kvs) =>
    match objGet kvs (pstr "selected_indices") with
    | some (.arr xs) => jsonInts xs
    | some _ => none
    | none => some []
  | _ => none

/-- `x[1].score or 0`. -/
def scoreKey (tp : Topic) : Int := tp.score.getD 0

/-- The fallback of `select_topics_with_ai` on AI failure: stable sort
of the enumerated headlines by score descending, first `max_topics`
indices. -/
def select_fallback_by_score (headlines : List Topic) (max_topics : Nat) : List Int :=
  ((((headlines.enum).mergeSort (fun a b => scoreKey a.2 ≥ scoreKey b.2)).take
    max_topics).map (fun p => (p.1 : Int)))

/-- `select_topics_with_ai`, gemini backend, as a function of the raw
model response: the parsed indices pass through unvalidated; on any
failure, the score-descending fallback. -/
def select_topics_with_ai_gemini (headlines : List Topic) (max_topics : Nat)
    (content : PyStr) : List Int :=
  match gemini_selected_indices content with
  | some idxs => idxs
  | none => select_fallback_by_score headlines max_topics

/-- Python list indexing `xs[i]`: negative indices count from the end;
`none` models a raised `IndexError`. -/
def pyIndex {α : Type} (xs : List α) (i : Int) : Option α :=
  let j := if i < 0 then (xs.length : Int) + i else i
  if 0 ≤ j ∧ j < (xs.length : Int) then xs[j.toNat]? else none

/-- `[selection_pool[i] for i in selected_indices]`
(src/app/main.py, line 158); `none` models an `IndexError` escaping
`run_once`. -/
def selected_topics_of (pool : List Topic) (idxs : List Int) : Option (List Topic) :=
  idxs.mapM (pyIndex pool)

/-! ## History filtering (src/app/main.py, lines 122-137) -/

/-- `_is_previously_summarized` (src/app/main.py, lines 123-130): the
topic's non-empty `url` is in the seen-URL set, or its non-empty
`title` is in the seen-title set. -/
def _is_previously_summarized (already_urls already_titles : List PyStr) (t : Topic) : Bool :=
  (!t.url.isEmpty && already_urls.contains t.url) ||
  (!t.title.isEmpty && already_titles.contains t.title)

/-- The selection-pool computation of `run_once` (lines 122-137): when
some previously seen URL/title exists, filter the headlines, but keep
the whole unfiltered list when filtering would leave nothing. -/
def selection_pool_after_history (all_headlines : List Topic)
    (already_urls already_titles : List PyStr) : List Topic :=
  if !already_urls.isEmpty || !already_titles.isEmpty then
    if 0 < (all_headlines.filter
        (fun t => !_is_previously_summarized already_urls already_titles t)).length then
      all_headlines.filter
        (fun t => !_is_previously_summarized already_urls already_titles t)
    else all_headlines
  else all_headlines

/-! ## `translate_bundle` (src/app/translate.py), value-level model -/

/-- `is_chinese_text` (src/app/translate.py, lines 101-107): does the
string contain a CJK code point in U+4E00..U+9FFF? -/
def is_chinese_text (s : PyStr) : Bool :=
  s.any (fun c => 0x4e00 ≤ c && c ≤ 0x9fff)

/-- The payload/topic-index-map loop (lines 122-131): walks the topics,
skipping any whose `summary` or `title` is already Chinese; `k` is the
running payload length.  Returns `topic_index_map` (payload index per
original position, `none` when skipped) and `payload_topics`
(title/summary pairs actually sent). -/
def topicMapsAux : List TopicEntry → Nat → List (Option Nat) × List (PyStr × PyStr)
  | [], _ => ([], [])
  | t :: rest, k =>
    if is_chinese_text (t.summary.getD []) || is_chinese_text t.title then
      let r := topicMapsAux rest k
      (none :: r.1, r.2)
    else
      let r := topicMapsAux rest (k + 1)
      (some k :: r.1, (t.title, t.summary.getD []) :: r.2)

/-- `topic_index_map` of `translate_bundle`. -/
def topic_index_map (topics : List TopicEntry) : List (Option Nat) :=
  (topicMapsAux topics 0).1

/-- `payload_topics` of `translate_bundle`. -/
def payload_topics (topics : List TopicEntry) : List (PyStr × PyStr) :=
  (topicMapsAux topics 0).2

/-- The caption payload/index-map loop (lines 141-149). -/
def captionMapsAux : List Caption → Nat → List (Option Nat) × List PyStr
  | [], _ => ([], [])
  | c :: rest, k =>
    if is_chinese_text c.text then
      let r := captionMapsAux rest k
      (none :: r.1, r.2)
    else
      let r := captionMapsAux rest (k + 1)
      (some k :: r.1, c.text :: r.2)

/-- `caption_index_map` of `translate_bundle`. -/
def caption_index_map (captions : List Caption) : List (Option Nat) :=
  (captionMapsAux captions 0).1

/-- `payload_captions` of `translate_bundle`. -/
def payload_captions (captions : List Caption) : List PyStr :=
  (captionMapsAux captions 0).2

/-- The `english_narration_parts` loop (lines 134-139): one numbered
line per non-Chinese topic, at its original 1-based position `i + 1`. -/
def englishPartsAux : List TopicEntry → Nat → List PyStr
  | [], _ => []
  | t :: rest, i =>
    if is_chinese_text (t.summary.getD []) || is_chinese_text t.title then
      englishPartsAux rest (i + 1)
    else
      (natStr (i + 1) ++ pstr ". " ++ t.title ++ pstr ": " ++ t.summary.getD []) ::
        englishPartsAux rest (i + 1)

/-- `english_narration_parts` of `translate_bundle`. -/
def english_narration_parts (topics : List TopicEntry) : List PyStr :=
  englishPartsAux topics 0

/-- The translated object parsed from a successful batched response:
`translated_obj.get(...)` defaults are modelled by `Option` fields. -/
structure TransTopic where
  title : Option PyStr := none
  summary : Option PyStr := none
deriving DecidableEq, Repr

/-- The shape `{'narration': ..., 'topics': [...], 'captions': [...]}`
read back from the batched translation response. -/
structure TransObj where
  narration : Option PyStr := none
  topics : List TransTopic := []
  captions : List PyStr := []
deriving DecidableEq, Repr

/-- One step of the batched topic map-back loop at original index `i`:
an out-of-range or `none` map entry leaves the topic unchanged
(`t_copy = dict(t)` untouched). -/
def applyTopicEntry (tmap : List (Option Nat)) (tobj : TransObj) (i : Nat)
    (t : TopicEntry) : TopicEntry :=
  match tmap[i]? with
  | some (some m) =>
    match tobj.topics[m]? with
    | some trt =>
      { t with
        summary := some (trt.summary.getD (t.summary.getD []))
        title := trt.title.getD t.title }
    | none => t
  | _ => t

/-- The `for i, t in enumerate(bundle.get("topics", []))` loop of the
batched map-back. -/
def applyTopicsAux (tmap : List (Option Nat)) (tobj : TransObj) :
    List TopicEntry → Nat → List TopicEntry
  | [], _ => []
  | t :: rest, i => applyTopicEntry tmap tobj i t :: applyTopicsAux tmap tobj rest (i + 1)

/-- One step of the caption map-back loop at original index `i`. -/
def applyCaptionEntry (cmap : List (Option Nat)) (tobj : TransObj) (i : Nat)
    (c : Caption) : Caption :=
  { c with text :=
      match cmap[i]? with
      | some (some m) => (tobj.captions[m]?).getD c.text
      | _ => c.text }

/-- The `for i, c in enumerate(bundle.get("captions", []))` loop of the
batched map-back. -/
def applyCaptionsAux (cmap : List (Option Nat)) (tobj : TransObj) :
    List Caption → Nat → List Caption
  | [], _ => []
  | c :: rest, i => applyCaptionEntry cmap tobj i c :: applyCaptionsAux cmap tobj rest (i + 1)

/-- The batched map-back (src/app/translate.py, lines 213-240): apply
the translated narration/topics/captions back into a fresh bundle
through the two index maps. -/
def applyBatchedTranslation (bundle : Bundle) (tmap : List (Option Nat))
    (cmap : List (Option Nat)) (tobj : TransObj) : Bundle :=
  { bundle with
    narration := tobj.narration.getD bundle.narration
    topics := applyTopicsAux tmap tobj bundle.topics 0
    captions := applyCaptionsAux cmap tobj bundle.captions 0 }

/-- `translate_text` (lines 8-89) as seen by the per-field fallback:
empty text maps to `""`; otherwise the backend's per-field result `tr`
(which on a per-field failure is the original text). -/
def translate_text_model (tr : PyStr → PyStr) (text : PyStr) : PyStr :=
  if text.isEmpty then [] else tr text

/-- The per-field fallback pass (src/app/translate.py, lines 313-351):
narration, each topic's summary/title, and each caption's text are
translated independently, skipping empty or already-Chinese fields. -/
def perFieldFallback (tr : PyStr → PyStr) (bundle : Bundle) : Bundle :=
  let narration := translate_text_model tr bundle.narration
  let out_topics := bundle.topics.map (fun t =>
    let summary := t.summary.getD []
    let title := t.title
    { t with
      summary := some (if !summary.isEmpty && !is_chinese_text summary then
        translate_text_model tr summary else summary)
      title := if !title.isEmpty && !is_chinese_text title then
        translate_text_model tr title else title })
  let out_caps := bundle.captions.map (fun c =>
    { c with text := if !c.text.isEmpty && !is_chinese_text c.text then
        translate_text_model tr c.text else c.text })
  { bundle with narration := narration, topics := out_topics, captions := out_caps }

/-- `translate_bundle` (src/app/translate.py, lines 92-351) for an LLM
backend, as a function of the batched-call outcome: `batched = some
tobj` models a batched response that parsed, `none` models a batched
failure (which escalates to the per-field pass with per-field
translator `tr`).  When nothing is English the original bundle is
returned before any call is made (lines 151-153). -/
def translate_bundle (bundle : Bundle) (batched : Option TransObj)
    (tr : PyStr → PyStr) : Bundle :=
  if english_narration_parts bundle.topics = [] ∧ payload_topics bundle.topics = [] ∧
      payload_captions bundle.captions = [] then
    bundle
  else
    match batched with
    | some tobj =>
      applyBatchedTranslation bundle (topic_index_map bundle.topics)
        (caption_index_map bundle.captions) tobj
    | none => perFieldFallback tr bundle

/-! ## `translate_bundle` as a heap computation (frame property)

Python dicts are mutable objects; to state that `translate_bundle`
never mutates its argument we re-run the same code over an explicit
heap of dicts.  Addresses are indices into the heap list; `dict(x)`
becomes "read the dict at an address, allocate a fresh copy". -/

/-- A value stored in a dict field. -/
inductive HVal where
  | s (v : PyStr) : HVal
  | q (v : ℚ) : HVal
  | refList (addrs : List Nat) : HVal
  | strList (vs : List PyStr) : HVal
  | non : HVal
deriving DecidableEq, Repr

/-- A Python dict: ordered key/value pairs. -/
abbrev PyDict := List (PyStr × HVal)

/-- The heap: dict objects addressed by position. -/
abbrev Heap := List PyDict

/-- Read the dict at address `a` (a dangling address reads `{}`). -/
def heapGet (h : Heap) (a : Nat) : PyDict := (h[a]?).getD []

/-- `d.get(key)`. -/
def dGet (d : PyDict) (key : PyStr) : Option HVal :=
  (d.reverse.find? (fun kv => kv.1 == key)).map (·.2)

/-- `d.get(key, "")` for a string field. -/
def dGetStr (d : PyDict) (key : PyStr) : PyStr :=
  match dGet d key with
  | some (.s v) => v
  | _ => []

/-- `d[key] = v`: overwrite in place, else append. -/
def dSet (d : PyDict) (key : PyStr) (v : HVal) : PyDict :=
  if d.any (fun kv => kv.1 == key) then
    d.map (fun kv => if kv.1 == key then (kv.1, v) else kv)
  else d ++ [(key, v)]

/-- The skip test of the batched loop at the dict level:
`is_chinese_text(summary) or is_chinese_text(title)`. -/
def dictTopicSkip (d : PyDict) : Bool :=
  is_chinese_text (dGetStr d (pstr "summary")) || is_chinese_text (dGetStr d (pstr "title"))

/-- `topic_index_map` built over topic dicts (same loop as
`topicMapsAux`, reading dict fields). -/
def dictTopicMapAux : List PyDict → Nat → List (Option Nat) × Nat
  | [], _ => ([], 0)
  | d :: rest, k =>
    if dictTopicSkip d then
      let r := dictTopicMapAux rest k
      (none :: r.1, r.2)
    else
      let r := dictTopicMapAux rest (k + 1)
      (some k :: r.1, r.2 + 1)

/-- `caption_index_map` built over caption dicts. -/
def dictCaptionMapAux : List PyDict → Nat → List (Option Nat) × Nat
  | [], _ => ([], 0)
  | d :: rest, k =>
    if is_chinese_text (dGetStr d (pstr "text")) then
      let r := dictCaptionMapAux rest k
      (none :: r.1, r.2)
    else
      let r := dictCaptionMapAux rest (k + 1)
      (some k :: r.1, r.2 + 1)

/-- The batched map-back over dicts (lines 213-240): `t_copy = dict(t)`
followed by the two key assignments, per topic. -/
def dictApplyTopic (tmap : List (Option Nat)) (tobj : TransObj) (i : Nat)
    (t : PyDict) : PyDict :=
  match tmap[i]? with
  | some (some m) =>
    match tobj.topics[m]? with
    | some trt =>
      dSet (dSet t (pstr "summary")
          (.s (trt.summary.getD (dGetStr t (pstr "summary")))))
        (pstr "title") (.s (trt.title.getD (dGetStr t (pstr "title"))))
    | none => t
  | _ => t

/-- The batched caption map-back over dicts: `c_copy = dict(c)` then
`c_copy["text"] = text`. -/
def dictApplyCaption (cmap : List (Option Nat)) (tobj : TransObj) (i : Nat)
    (c : PyDict) : PyDict :=
  let text :=
    match cmap[i]? with
    | some (some m) => (tobj.captions[m]?).getD (dGetStr c (pstr "text"))
    | _ => dGetStr c (pstr "text")
  dSet c (pstr "text") (.s text)

/-- The per-field pass over a topic dict (lines 323-336). -/
def dictPerFieldTopic (tr : PyStr → PyStr) (t : PyDict) : PyDict :=
  let summary := dGetStr t (pstr "summary")
  let title := dGetStr t (pstr "title")
  dSet (dSet t (pstr "summary")
      (.s (if !summary.isEmpty && !is_chinese_text summary then
        translate_text_model tr summary else summary)))
    (pstr "title") (.s (if !title.isEmpty && !is_chinese_text title then
      translate_text_model tr title else title))

/-- The per-field pass over a caption dict (lines 341-348). -/
def dictPerFieldCaption (tr : PyStr → PyStr) (c : PyDict) : PyDict :=
  let text := dGetStr c (pstr "text")
  dSet c (pstr "text") (.s (if !text.isEmpty && !is_chinese_text text then
    translate_text_model tr text else text))

/-- `translate_bundle` over the heap.  `ba` is the bundle dict's
address; its `topics`/`captions` fields hold addresses of the
topic/caption dicts.  Every path builds the result from fresh
allocations (`dict(bundle)`, `dict(t)`, `dict(c)` in the source); the
early no-English return hands back the original address unchanged. -/
def translate_bundle_heap (h : Heap) (ba : Nat) (batched : Option TransObj)
    (tr : PyStr → PyStr) : Heap × Nat :=
  let b := heapGet h ba
  let topicAddrs := match dGet b (pstr "topics") with | some (.refList as) => as | _ => []
  let capAddrs := match dGet b (pstr "captions") with | some (.refList as) => as | _ => []
  let topicDicts := topicAddrs.map (heapGet h)
  let capDicts := capAddrs.map (heapGet h)
  let tmap := (dictTopicMapAux topicDicts 0).1
  let cmap := (dictCaptionMapAux capDicts 0).1
  -- `not english_narration_parts and not payload_topics and not payload_captions`
  if (tmap.all (fun m => m.isNone)) ∧ (cmap.all (fun m => m.isNone)) then
    (h, ba)
  else
    match batched with
    | some tobj =>
      let newTopics := topicDicts.enum.map (fun p => dictApplyTopic tmap tobj p.1 p.2)
      let newCaps := capDicts.enum.map (fun p => dictApplyCaption cmap tobj p.1 p.2)
      let h1 := h ++ newTopics
      let tAddrs := (List.range newTopics.length).map (fun k => h.length + k)
      let h2 := h1 ++ newCaps
      let cAddrs := (List.range newCaps.length).map (fun k => h1.length + k)
      let narr := tobj.narration.getD (dGetStr b (pstr "narration"))
      let out := dSet (dSet (dSet b (pstr "narration") (.s narr))
        (pstr "topics") (.refList tAddrs)) (pstr "captions") (.refList cAddrs)
      (h2 ++ [out], h2.length)
    | none =>
      let newTopics := topicDicts.map (dictPerFieldTopic tr)
      let newCaps := capDicts.map (dictPerFieldCaption tr)
      let h1 := h ++ newTopics
      let tAddrs := (List.range newTopics.length).map (fun k => h.length + k)
      let h2 := h1 ++ newCaps
      let cAddrs := (List.range newCaps.length).map (fun k => h1.length + k)
      let narr := translate_text_model tr (dGetStr b (pstr "narration"))
      let out := dSet (dSet (dSet b (pstr "narration") (.s narr))
        (pstr "topics") (.refList tAddrs)) (pstr "captions") (.refList cAddrs)
      (h2 ++ [out], h2.length)

/-! ## `cleanup_old_outputs` (src/app/utils.py, lines 39-77)

`datetime.strptime(name, "%Y-%m-%d")` is modelled after CPython's
`_strptime` regex: `%Y` is exactly four digits, `%m` is
`1[0-2]|0[1-9]|[1-9]`, `%d` is `3[01]|[12]\d|0[1-9]|[1-9]` (leftmost
alternative wins, with backtracking), the whole name must be consumed,
and the resulting date must be a valid calendar date (else `ValueError`,
i.e. `none`).  Timestamps are counted in days: a parsed date stands for
midnight of its proleptic-Gregorian ordinal, and the cutoff
`datetime.now() - timedelta(days=retain_days)` and each directory's
`st_mtime` enter the model as rational day counts on the same axis. -/

/-- The `%m` alternatives `1[0-2]|0[1-9]|[1-9]`, in regex order, each
with the remaining input. -/
def monthAlts (s : PyStr) : List (Nat × PyStr) :=
  (match s with
   | 49 :: c2 :: rest => if 48 ≤ c2 ∧ c2 ≤ 50 then [(10 + (c2 - 48), rest)] else []
   | _ => []) ++
  (match s with
   | 48 :: c2 :: rest => if 49 ≤ c2 ∧ c2 ≤ 57 then [(c2 - 48, rest)] else []
   | _ => []) ++
  (match s with
   | c1 :: rest => if 49 ≤ c1 ∧ c1 ≤ 57 then [(c1 - 48, rest)] else []
   | _ => [])

/-- The `%d` alternatives `3[01]|[12]\d|0[1-9]|[1-9]`, in regex order. -/
def dayAlts (s : PyStr) : List (Nat × PyStr) :=
  (match s with
   | 51 :: c2 :: rest => if 48 ≤ c2 ∧ c2 ≤ 49 then [(30 + (c2 - 48), rest)] else []
   | _ => []) ++
  (match s with
   | c1 :: c2 :: rest =>
     if (c1 = 49 ∨ c1 = 50) ∧ isDigitCp c2 then
       [((c1 - 48) * 10 + (c2 - 48), rest)] else []
   | _ => []) ++
  (match s with
   | 48 :: c2 :: rest => if 49 ≤ c2 ∧ c2 ≤ 57 then [(c2 - 48, rest)] else []
   | _ => []) ++
  (match s with
   | c1 :: rest => if 49 ≤ c1 ∧ c1 ≤ 57 then [(c1 - 48, rest)] else []
   | _ => [])

/-- Full-string match of `%Y-%m-%d` with regex backtracking: the first
month/day alternative whose continuation consumes the rest wins. -/
def matchYMD (s : PyStr) : Option (Nat × Nat × Nat) :=
  match s with
  | y1 :: y2 :: y3 :: y4 :: 45 :: rest =>
    if isDigitCp y1 && isDigitCp y2 && isDigitCp y3 && isDigitCp y4 then
      let y := (y1 - 48) * 1000 + (y2 - 48) * 100 + (y3 - 48) * 10 + (y4 - 48)
      (((monthAlts rest).filterMap (fun (m, rest2) =>
          match rest2 with
          | 45 :: rest3 =>
            (((dayAlts rest3).filterMap (fun (d, rest4) =>
                if rest4 = [] then some d else none)).head?).map (fun d => (m, d))
          | _ => none)).head?).map (fun (m, d) => (y, m, d))
    else none
  | _ => none

/-- Proleptic-Gregorian leap year. -/
def isLeapYear (y : Nat) : Bool :=
  y % 4 = 0 && (y % 100 ≠ 0 || y % 400 = 0)

/-- Days in a month. -/
def daysInMonth (y m : Nat) : Nat :=
  if m = 2 then (if isLeapYear y then 29 else 28)
  else if m = 4 ∨ m = 6 ∨ m = 9 ∨ m = 11 then 30
  else 31

/-- `datetime.strptime(name, "%Y-%m-%d")`: regex match plus calendar
validity (`datetime` requires `1 ≤ year` and a real day). -/
def parseDirDate (name : PyStr) : Option (Nat × Nat × Nat) :=
  match matchYMD name with
  | some (y, m, d) =>
    if 1 ≤ y ∧ d ≤ daysInMonth y m then some (y, m, d) else none
  | none => none

/-- Cumulative days before month `m` in a non-leap year. -/
def daysBeforeMonth (m : Nat) : Nat :=
  [0, 0, 31, 59, 90, 120, 151, 181, 212, 243, 273, 304, 334].getD m 0

/-- `date(y, m, d).toordinal()`. -/
def toOrdinal (y m d : Nat) : Nat :=
  365 * (y - 1) + (y - 1) / 4 - (y - 1) / 100 + (y - 1) / 400 +
    daysBeforeMonth m + (if 2 < m ∧ isLeapYear y then 1 else 0) + d

/-- One child of the output root as `cleanup_old_outputs` sees it:
its name, whether it is a directory, and its `st_mtime` in day units
(`none` when `child.stat()` raises). -/
structure DirEntry where
  name : PyStr
  is_dir : Bool
  mtime : Option ℚ
deriving DecidableEq, Repr

/-- The per-child removal decision of `cleanup_old_outputs`
(src/app/utils.py, lines 53-77): skip non-directories, skip `latest`
under `keep_latest`, parse the name as `YYYY-MM-DD`, else fall back to
the modification time, else skip; remove when the resulting time is
before the cutoff. -/
def cleanup_should_remove (keep_latest : Bool) (cutoff : ℚ) (c : DirEntry) : Bool :=
  if !c.is_dir then false
  else if keep_latest && c.name == pstr "latest" then false
  else
    match parseDirDate c.name with
    | some (y, m, d) => decide ((toOrdinal y m d : ℚ) < cutoff)
    | none =>
      match c.mtime with
      | some mt => decide (mt < cutoff)
      | none => false

/-- `cleanup_old_outputs` over a model directory listing: the children
the loop removes, in iteration order. -/
def cleanup_old_outputs (keep_latest : Bool) (cutoff : ℚ)
    (children : List DirEntry) : List DirEntry :=
  children.filter (cleanup_should_remove keep_latest cutoff)

/-! ## `_fmt_time` and `write_srt` (src/app/captions.py) -/

/-- Python's `round` to an integer: round half to even.  (The source
rounds a float; the caption times this file evaluates it on are exact
in binary floating point, so the rational model agrees.) -/
def pyRound (x : ℚ) : ℤ :=
  if x - (⌊x⌋ : ℚ) < 1 / 2 then ⌊x⌋
  else if 1 / 2 < x - (⌊x⌋ : ℚ) then ⌊x⌋ + 1
  else if ⌊x⌋ % 2 = 0 then ⌊x⌋ else ⌊x⌋ + 1

/-- `f"{n:0{w}d}"`: decimal digits zero-padded to width `w` (a sign,
not produced by well-formed captions, counts toward the width as in
Python). -/
def fmtIntW (n : ℤ) (w : Nat) : PyStr :=
  if n < 0 then
    45 :: (List.replicate (w - 1 - (natStr n.natAbs).length) 48 ++ natStr n.natAbs)
  else
    List.replicate (w - (natStr n.toNat).length) 48 ++ natStr n.toNat

/-- `_fmt_time` (src/app/captions.py, lines 6-15): SRT timestamp
`HH:MM:SS,mmm`. -/
def _fmt_time (seconds : ℚ) : PyStr :=
  let ms0 := pyRound (seconds * 1000)
  let s0 := ms0 / 1000
  let ms := ms0 % 1000
  let hh := s0 / 3600
  let s1 := s0 % 3600
  let mm := s1 / 60
  let ss := s1 % 60
  fmtIntW hh 2 ++ [58] ++ fmtIntW mm 2 ++ [58] ++ fmtIntW ss 2 ++ [44] ++ fmtIntW ms 3

/-- The loop of `write_srt` (src/app/captions.py, lines 21-30), one
4-line block per emitted caption: with `enumerate(captions, start=1)`,
an index line, a timing line, the stripped text and a blank line — a
caption whose stripped text is empty is skipped entirely while the
enumeration counter `i` still advances. -/
def write_srt_blocks : List Caption → Nat → List (List PyStr)
  | [], _ => []
  | cap :: rest, i =>
    let text := pyStrip cap.text
    if text.isEmpty then write_srt_blocks rest (i + 1)
    else
      [natStr i,
       _fmt_time cap.start_s ++ pstr " --> " ++ _fmt_time cap.end_s,
       text, ([] : PyStr)] :: write_srt_blocks rest (i + 1)

/-- The full `lines` list built by `write_srt` (joined with newlines
into `captions.srt`). -/
def write_srt_lines (captions : List Caption) : List PyStr :=
  (write_srt_blocks captions 1).flatten

/-- Just the sequence-number lines emitted by `write_srt`, with the
same counter discipline. -/
def srtNumbersAux : List Caption → Nat → List PyStr
  | [], _ => []
  | cap :: rest, i =>
    if (pyStrip cap.text).isEmpty then srtNumbersAux rest (i + 1)
    else natStr i :: srtNumbersAux rest (i + 1)

/-- The sequence numbers appearing in the emitted SRT, in order. -/
def srt_seq_numbers (captions : List Caption) : List PyStr :=
  srtNumbersAux captions 1

/-! ## Sample concrete inputs (used by witnesses and counterexamples) -/

/-- A concrete English-source topic. -/
def sampleTopicA : Topic :=
  { title := pstr "Sample AI story"
    url := pstr "https://example.com/a"
    score := some 10
    excerpt := pstr "An excerpt"
    source := pstr "Hacker News"
    comments_count := 3
    author := pstr "alice"
    content := pstr "Full article text" }

/-- A second concrete topic with no content. -/
def sampleTopicB : Topic :=
  { title := pstr "Second story"
    url := pstr "https://example.com/b"
    score := some 5
    excerpt := []
    source := pstr "Reddit r/programming"
    comments_count := 0
    author := []
    content := [] }

/-- A raw LLM response no repair step can parse. -/
def garbledResponse : PyStr := pstr "Service overloaded, try again later."

/-- A valid JSON object wrapped in ```` ```json ```` fences with one
trailing invalid character after the closing fence. -/
def fencedResponse : PyStr := pstr "```json\n\x7b\"topics\": []\x7d\n```!"

/-- A selection response whose `selected_indices` points outside a
one-element pool. -/
def oobSelectionResponse : PyStr :=
  pstr "\x7b\"selected_indices\": [5], \"reasoning\": \"top pick\"\x7d"

/-- A topic entry whose title and summary are already Chinese. -/
def cnEntry : TopicEntry :=
  { title := pstr "中文标题"
    source := pstr "China News"
    url := some (pstr "https://example.cn/x")
    key_points := []
    summary := some (pstr "中文摘要") }

/-- A caption whose text is already Chinese. -/
def cnCap : Caption := { start_s := 0, end_s := 8, text := pstr "中文字幕" }

/-- A bundle in which every topic and caption field is detected as
Chinese. -/
def cnBundle : Bundle :=
  { topics := [cnEntry]
    narration := pstr "1. 中文标题: 中文摘要"
    captions := [cnCap]
    hashtags := [pstr "#AI"] }

/-- A concrete batched-translation response object. -/
def sampleTransObj : TransObj :=
  { narration := some (pstr "翻译后的旁白")
    topics := [{ title := some (pstr "翻译标题"), summary := some (pstr "翻译摘要") }]
    captions := [pstr "翻译字幕"] }

/-- A concrete three-dict heap: one topic dict, one caption dict, and
the bundle dict at address 2. -/
def sampleHeap : Heap :=
  [[(pstr "title", .s (pstr "T")), (pstr "summary", .s (pstr "S"))],
   [(pstr "text", .s (pstr "C")), (pstr "start_s", .non)],
   [(pstr "narration", .s (pstr "N")),
    (pstr "topics", .refList [0]),
    (pstr "captions", .refList [1])]]

/-- Captions whose middle entry has whitespace-only text: `write_srt`
skips it while the counter advances. -/
def gapCaps : List Caption :=
  [{ start_s := 0, end_s := 1, text := pstr "a" },
   { start_s := 1, end_s := 2, text := pstr " " },
   { start_s := 2, end_s := 3, text := pstr "b" }]

/-- The spec's retention scenario: an old dated directory, an undated
`latest`, and an undated old directory, against a cutoff between 2020
and today (ordinal day count). -/
def oldStuffDir : DirEntry := { name := pstr "old_stuff", is_dir := true, mtime := some 0 }

/-- The dated directory of the retention scenario. -/
def datedDir : DirEntry := { name := pstr "2020-01-01", is_dir := true, mtime := none }

/-- The protected `latest` directory of the retention scenario. -/
def latestDir : DirEntry := { name := pstr "latest", is_dir := true, mtime := some 0 }

/-! ## Helper lemmas -/

theorem dummyEntry_title (tp : Topic) (ic : Bool) : (dummyEntry tp ic).title = tp.title := by
  unfold dummyEntry
  split <;> (try split) <;> rfl

theorem dummyEntry_source (tp : Topic) (ic : Bool) : (dummyEntry tp ic).source = tp.source := by
  unfold dummyEntry
  split <;> (try split) <;> rfl

theorem dummyEntry_url (tp : Topic) (ic : Bool) : (dummyEntry tp ic).url = some tp.url := by
  unfold dummyEntry
  split <;> (try split) <;> rfl

theorem dummyLoop_fst (tps : List Topic) (ic : Bool) :
    ∀ (c : Nat) (t : ℚ), (dummyLoop tps ic c t).1 = tps.map (fun tp => dummyEntry tp ic) := by
  induction tps with
  | nil => intro c t; rfl
  | cons tp rest ih =>
    intro c t
    simp only [dummyLoop, List.map_cons]
    rw [ih]

theorem dummyLoop_caps_length (tps : List Topic) (ic : Bool) :
    ∀ (c : Nat) (t : ℚ), (dummyLoop tps ic c t).2.2.length = tps.length := by
  induction tps with
  | nil => intro c t; rfl
  | cons tp rest ih =>
    intro c t
    simp only [dummyLoop, List.length_cons]
    rw [ih]

theorem dummyLoop_caps_proj (tps : List Topic) (ic : Bool) :
    ∀ (c : Nat) (t : ℚ) (i : Nat),
      ((dummyLoop tps ic c t).2.2[i]?).map (fun cp => (cp.start_s, cp.end_s)) =
        if i < tps.length then some (t + 8 * i, t + 8 * i + 8) else none := by
  induction tps with
  | nil => intro c t i; simp [dummyLoop]
  | cons tp rest ih =>
    intro c t i
    cases i with
    | zero => simp [dummyLoop]
    | succ j =>
      simp only [dummyLoop, List.getElem?_cons_succ, List.length_cons]
      rw [ih (c + 1) (t + 8) j]
      by_cases hj : j < rest.length
      · rw [if_pos hj, if_pos (Nat.succ_lt_succ hj)]
        simp only [Option.some.injEq, Prod.mk.injEq]
        push_cast
        constructor <;> ring
      · rw [if_neg hj, if_neg (fun hc => hj (Nat.lt_of_succ_lt_succ hc))]

theorem dummyLoop_caps_mem (tps : List Topic) (ic : Bool) :
    ∀ (c : Nat) (t : ℚ) (cp : Caption), cp ∈ (dummyLoop tps ic c t).2.2 →
      cp.end_s = cp.start_s + 8 := by
  induction tps with
  | nil => intro c t cp h; simp [dummyLoop] at h
  | cons tp rest ih =>
    intro c t cp h
    simp only [dummyLoop, List.mem_cons] at h
    rcases h with h | h
    · rw [h]
    · exact ih (c + 1) (t + 8) cp h

/-! ## Claim theorems -/

/-- C1: for every non-empty input topic list, the deterministic
generator `_dummy` returns a bundle whose `topics` list has exactly the
input's length, and the i-th output topic carries the title, source and
url of the i-th input topic. -/
theorem C1_dummy_positional_correspondence (topics : List Topic) (ic : Bool)
    (h : topics ≠ []) :
    (_dummy topics ic).topics.length = topics.length ∧
    ∀ i : Nat, ((_dummy topics ic).topics[i]?).map (fun e => (e.title, e.source, e.url)) =
      (topics[i]?).map (fun tp => (tp.title, tp.source, some tp.url)) := by
  have ht : (_dummy topics ic).topics = topics.map (fun tp => dummyEntry tp ic) := by
    show (dummyLoop topics ic 1 0).1 = _
    exact dummyLoop_fst topics ic 1 0
  refine ⟨by rw [ht, List.length_map], ?_⟩
  intro i
  rw [ht, List.getElem?_map]
  cases hq : topics[i]? with
  | none => rfl
  | some tp => simp [dummyEntry_title, dummyEntry_source, dummyEntry_url]

/-- Witness for C1 at a concrete two-topic list, index 1. -/
theorem C1_dummy_positional_correspondence_witness :
    (_dummy [sampleTopicA, sampleTopicB] false).topics.length =
      ([sampleTopicA, sampleTopicB] : List Topic).length ∧
    ((_dummy [sampleTopicA, sampleTopicB] false).topics[1]?).map
        (fun e => (e.title, e.source, e.url)) =
      (([sampleTopicA, sampleTopicB] : List Topic)[1]?).map
        (fun tp => (tp.title, tp.source, some tp.url)) :=
  ⟨(C1_dummy_positional_correspondence [sampleTopicA, sampleTopicB] false
      (by decide)).1,
   (C1_dummy_positional_correspondence [sampleTopicA, sampleTopicB] false
      (by decide)).2 1⟩

/-- C2: on the gemini path, when every step of the repair chain fails
on the (stripped, fence-cleaned) raw response, `summarize` returns the
deterministic `_dummy` bundle; `_dummy` is a total function, so this
terminal recovery cannot itself fail. -/
theorem C2_parse_failure_falls_back_to_dummy (topics : List Topic) (ic : Bool)
    (raw : PyStr) (h : _parse_with_repair (cleanFences (pyStrip raw)) = none) :
    summarize_gemini topics ic raw = Sum.inr (_dummy topics ic) := by
  simp only [summarize_gemini, h]

/-- Witness for C2 at a concrete unparsable response. -/
theorem C2_parse_failure_falls_back_to_dummy_witness :
    summarize_gemini [sampleTopicA] false garbledResponse =
      Sum.inr (_dummy [sampleTopicA] false) :=
  C2_parse_failure_falls_back_to_dummy [sampleTopicA] false garbledResponse rfl

/-- C3: `_dummy` produces exactly one caption per input topic, with
`start_s`/`end_s` advancing in fixed 8-second increments from 0; every
caption satisfies `start_s < end_s`, and consecutive captions satisfy
`end_s ≤` the next `start_s`. -/
theorem C3_dummy_caption_timing (topics : List Topic) (ic : Bool) :
    (_dummy topics ic).captions.length = topics.length ∧
    (∀ i, i < topics.length →
      ((_dummy topics ic).captions[i]?).map (fun cp => (cp.start_s, cp.end_s)) =
        some (8 * (i : ℚ), 8 * (i : ℚ) + 8)) ∧
    (∀ cp ∈ (_dummy topics ic).captions, cp.start_s < cp.end_s) ∧
    (∀ i (cp cp' : Caption), (_dummy topics ic).captions[i]? = some cp →
      (_dummy topics ic).captions[i + 1]? = some cp' → cp.end_s ≤ cp'.start_s) := by
  have hc : (_dummy topics ic).captions = (dummyLoop topics ic 1 0).2.2 := rfl
  refine ⟨by rw [hc, dummyLoop_caps_length], ?_, ?_, ?_⟩
  · intro i hi
    rw [hc, dummyLoop_caps_proj topics ic 1 0 i, if_pos hi]
    norm_num
  · intro cp hcp
    have h8 := dummyLoop_caps_mem topics ic 1 0 cp (by rwa [hc] at hcp)
    rw [h8]
    linarith
  · intro i cp cp' h1 h2
    have p1 := dummyLoop_caps_proj topics ic 1 0 i
    have p2 := dummyLoop_caps_proj topics ic 1 0 (i + 1)
    rw [hc] at h1 h2
    rw [h1] at p1
    rw [h2] at p2
    by_cases hlen : i + 1 < topics.length
    · rw [if_pos hlen] at p2
      rw [if_pos (Nat.lt_of_succ_lt hlen)] at p1
      simp only [Option.map_some', Option.some.injEq, Prod.mk.injEq] at p1 p2
      rw [p1.2, p2.1]
      push_cast
      linarith
    · rw [if_neg hlen] at p2
      simp at p2

/-- Witness for C3 at a concrete two-topic list, index 1. -/
theorem C3_dummy_caption_timing_witness :
    (_dummy [sampleTopicA, sampleTopicB] false).captions.length =
      ([sampleTopicA, sampleTopicB] : List Topic).length ∧
    ((_dummy [sampleTopicA, sampleTopicB] false).captions[1]?).map
        (fun cp => (cp.start_s, cp.end_s)) =
      some (8 * ((1 : Nat) : ℚ), 8 * ((1 : Nat) : ℚ) + 8) :=
  ⟨(C3_dummy_caption_timing [sampleTopicA, sampleTopicB] false).1,
   (C3_dummy_caption_timing [sampleTopicA, sampleTopicB] false).2.1 1 (by decide)⟩

/-- C4: for a non-empty candidate pool, the history-filtering step of
`run_once` never yields an empty selection pool, and when every
candidate matches the history sets the full unfiltered pool is used. -/
theorem C4_history_filter_never_empties (pool : List Topic)
    (urls titles : List PyStr) (h : pool ≠ []) :
    selection_pool_after_history pool urls titles ≠ [] ∧
    ((∀ t ∈ pool, _is_previously_summarized urls titles t = true) →
      selection_pool_after_history pool urls titles = pool) := by
  unfold selection_pool_after_history
  split
  · split
    · next hpos =>
      refine ⟨?_, ?_⟩
      · exact (List.length_pos.mp hpos)
      · intro hall
        exfalso
        have hnil : pool.filter
            (fun t => !_is_previously_summarized urls titles t) = [] := by
          rw [List.filter_eq_nil_iff]
          intro a ha
          simp [hall a ha]
        rw [hnil] at hpos
        simp at hpos
    · exact ⟨h, fun _ => rfl⟩
  · exact ⟨h, fun _ => rfl⟩

/-- Witness for C4: a one-topic pool whose only topic's URL is in the
history set; the pool survives unfiltered. -/
theorem C4_history_filter_never_empties_witness :
    selection_pool_after_history [sampleTopicA] [sampleTopicA.url] [] ≠ [] ∧
    selection_pool_after_history [sampleTopicA] [sampleTopicA.url] [] = [sampleTopicA] :=
  ⟨(C4_history_filter_never_empties [sampleTopicA] [sampleTopicA.url] []
      (by decide)).1,
   (C4_history_filter_never_empties [sampleTopicA] [sampleTopicA.url] []
      (by decide)).2 (by decide)⟩

/-- C5 (code bug): the selection indices returned by the model are
passed through `select_topics_with_ai` with no bounds check, and
`run_once` indexes the pool with them directly: on a one-topic pool, a
model response selecting index 5 reaches the pool indexing and raises
`IndexError` (modelled as `none`); nothing rejects or clamps it. -/
theorem C5_out_of_range_index_not_rejected :
    select_topics_with_ai_gemini [sampleTopicA] 3 oobSelectionResponse = [5] ∧
    selected_topics_of [sampleTopicA]
      (select_topics_with_ai_gemini [sampleTopicA] 3 oobSelectionResponse) = none ∧
    pyIndex [sampleTopicA, sampleTopicB] (-1) = some sampleTopicB := by
  refine ⟨by decide, by decide, by decide⟩

/-- C8: a valid JSON object wrapped in ```` ```json ```` fences with one
trailing invalid character: the direct parse and both mojibake
re-decodes fail, the brace-substring extraction recovers the object,
and `summarize` returns the parsed value rather than the `_dummy`
fallback. -/
theorem C8_fence_substring_recovery :
    json_loads (cleanFences (pyStrip fencedResponse)) = none ∧
    mojibakeLatin1Utf8 (cleanFences (pyStrip fencedResponse)) = none ∧
    mojibakeUtf8Latin1 (cleanFences (pyStrip fencedResponse)) = none ∧
    ((extractBraceSub (cleanFences (pyStrip fencedResponse))).bind json_loads).isSome = true ∧
    (_parse_with_repair (cleanFences (pyStrip fencedResponse))).isSome = true ∧
    (summarize_gemini [sampleTopicA] false fencedResponse).isLeft = true := by
  refine ⟨rfl, rfl, rfl, rfl, rfl, rfl⟩

theorem topicMapsAux_all_cn (ts : List TopicEntry) :
    ∀ k, (∀ t ∈ ts, (is_chinese_text (t.summary.getD []) || is_chinese_text t.title) = true) →
      topicMapsAux ts k = (ts.map (fun _ => none), []) := by
  induction ts with
  | nil => intro k _; rfl
  | cons t rest ih =>
    intro k hall
    have hc := hall t (List.mem_cons_self t rest)
    simp only [topicMapsAux, hc, if_true, List.map_cons]
    rw [ih k (fun x hx => hall x (List.mem_cons_of_mem t hx))]

theorem captionMapsAux_all_cn (cs : List Caption) :
    ∀ k, (∀ c ∈ cs, is_chinese_text c.text = true) →
      captionMapsAux cs k = (cs.map (fun _ => none), []) := by
  induction cs with
  | nil => intro k _; rfl
  | cons c rest ih =>
    intro k hall
    have hc := hall c (List.mem_cons_self c rest)
    simp only [captionMapsAux, hc, if_true, List.map_cons]
    rw [ih k (fun x hx => hall x (List.mem_cons_of_mem c hx))]

theorem englishPartsAux_all_cn (ts : List TopicEntry) :
    ∀ i, (∀ t ∈ ts, (is_chinese_text (t.summary.getD []) || is_chinese_text t.title) = true) →
      englishPartsAux ts i = [] := by
  induction ts with
  | nil => intro i _; rfl
  | cons t rest ih =>
    intro i hall
    have hc := hall t (List.mem_cons_self t rest)
    simp only [englishPartsAux, hc, if_true]
    exact ih (i + 1) (fun x hx => hall x (List.mem_cons_of_mem t hx))

theorem applyTopicsAux_getElem? (tmap : List (Option Nat)) (tobj : TransObj)
    (ts : List TopicEntry) :
    ∀ (i0 i : Nat),
      (applyTopicsAux tmap tobj ts i0)[i]? =
        (ts[i]?).map (applyTopicEntry tmap tobj (i0 + i)) := by
  induction ts with
  | nil => intro i0 i; simp [applyTopicsAux]
  | cons t rest ih =>
    intro i0 i
    cases i with
    | zero => simp [applyTopicsAux]
    | succ j =>
      simp only [applyTopicsAux, List.getElem?_cons_succ]
      rw [ih (i0 + 1) j]
      have : i0 + 1 + j = i0 + (j + 1) := by omega
      rw [this]

theorem applyCaptionsAux_getElem? (cmap : List (Option Nat)) (tobj : TransObj)
    (cs : List Caption) :
    ∀ (i0 i : Nat),
      (applyCaptionsAux cmap tobj cs i0)[i]? =
        (cs[i]?).map (applyCaptionEntry cmap tobj (i0 + i)) := by
  induction cs with
  | nil => intro i0 i; simp [applyCaptionsAux]
  | cons c rest ih =>
    intro i0 i
    cases i with
    | zero => simp [applyCaptionsAux]
    | succ j =>
      simp only [applyCaptionsAux, List.getElem?_cons_succ]
      rw [ih (i0 + 1) j]
      have : i0 + 1 + j = i0 + (j + 1) := by omega
      rw [this]

/-- C6: a bundle in which every topic title/summary and every caption
text is already Chinese passes through `translate_bundle` unchanged
(the early no-English return); and in the batched map-back, a position
whose index-map entry is `none` (the field was never sent) is passed
through to the output unchanged. -/
theorem C6_translate_noop_and_passthrough (bundle : Bundle)
    (batched : Option TransObj) (tr : PyStr → PyStr) :
    ((∀ t ∈ bundle.topics,
        (is_chinese_text (t.summary.getD []) || is_chinese_text t.title) = true) →
     (∀ cp ∈ bundle.captions, is_chinese_text cp.text = true) →
     translate_bundle bundle batched tr = bundle) ∧
    (∀ (tobj : TransObj) (i : Nat),
      ((topic_index_map bundle.topics)[i]? = some none →
        (applyBatchedTranslation bundle (topic_index_map bundle.topics)
          (caption_index_map bundle.captions) tobj).topics[i]? = bundle.topics[i]?) ∧
      ((caption_index_map bundle.captions)[i]? = some none →
        (applyBatchedTranslation bundle (topic_index_map bundle.topics)
          (caption_index_map bundle.captions) tobj).captions[i]? = bundle.captions[i]?)) := by
  constructor
  · intro ht hc
    have h1 : english_narration_parts bundle.topics = [] :=
      englishPartsAux_all_cn bundle.topics 0 ht
    have h2 : payload_topics bundle.topics = [] := by
      unfold payload_topics
      rw [topicMapsAux_all_cn bundle.topics 0 ht]
    have h3 : payload_captions bundle.captions = [] := by
      unfold payload_captions
      rw [captionMapsAux_all_cn bundle.captions 0 hc]
    unfold translate_bundle
    rw [if_pos ⟨h1, h2, h3⟩]
  · intro tobj i
    constructor
    · intro hmap
      show (applyTopicsAux _ tobj bundle.topics 0)[i]? = _
      rw [applyTopicsAux_getElem?]
      cases hts : bundle.topics[i]? with
      | none => rfl
      | some t =>
        simp only [Option.map_some']
        unfold applyTopicEntry
        rw [Nat.zero_add, hmap]
    · intro hmap
      show (applyCaptionsAux _ tobj bundle.captions 0)[i]? = _
      rw [applyCaptionsAux_getElem?]
      cases hcs : bundle.captions[i]? with
      | none => rfl
      | some c =>
        simp only [Option.map_some']
        unfold applyCaptionEntry
        rw [Nat.zero_add, hmap]

/-- Witness for C6: the all-Chinese bundle is returned unchanged even
when a batched response is available, and the index-map pass-through
holds at position 0. -/
theorem C6_translate_noop_and_passthrough_witness :
    translate_bundle cnBundle (some sampleTransObj) (fun _ => pstr "X") = cnBundle ∧
    (applyBatchedTranslation cnBundle (topic_index_map cnBundle.topics)
      (caption_index_map cnBundle.captions) sampleTransObj).topics[0]? =
      cnBundle.topics[0]? :=
  ⟨(C6_translate_noop_and_passthrough cnBundle (some sampleTransObj)
      (fun _ => pstr "X")).1 (by decide) (by decide),
   ((C6_translate_noop_and_passthrough cnBundle (some sampleTransObj)
      (fun _ => pstr "X")).2 sampleTransObj 0).1 (by decide)⟩

theorem cleanup_should_remove_iff (kl : Bool) (cutoff : ℚ) (c : DirEntry) :
    cleanup_should_remove kl cutoff c = true ↔
      (c.is_dir = true ∧ ¬(kl = true ∧ c.name = pstr "latest") ∧
        (match parseDirDate c.name with
         | some ymd => ((toOrdinal ymd.1 ymd.2.1 ymd.2.2 : ℚ) < cutoff)
         | none => ∃ mt, c.mtime = some mt ∧ mt < cutoff)) := by
  unfold cleanup_should_remove
  by_cases hdir : c.is_dir = true
  · by_cases hlat : kl = true ∧ c.name = pstr "latest"
    · have hb : (kl && (c.name == pstr "latest")) = true := by
        simp [Bool.and_eq_true, beq_iff_eq, hlat.1, hlat.2]
      simp [hdir, hb, hlat]
    · have hb : ¬((kl && (c.name == pstr "latest")) = true) := by
        simpa [Bool.and_eq_true, beq_iff_eq] using hlat
      cases hp : parseDirDate c.name with
      | some ymd =>
        obtain ⟨y, md⟩ := ymd
        obtain ⟨m, d⟩ := md
        simp [hdir, hb, hlat, hp, decide_eq_true_iff]
      | none =>
        cases hm : c.mtime with
        | some mt => simp [hdir, hb, hlat, hp, hm, decide_eq_true_iff]
        | none => simp [hdir, hb, hlat, hp, hm]
  · have hd : c.is_dir = false := by
      cases hcd : c.is_dir
      · rfl
      · exact absurd hcd hdir
    simp [hd]

theorem cleanup_mem_iff (kl : Bool) (cutoff : ℚ) (children : List DirEntry)
    (c : DirEntry) :
    c ∈ cleanup_old_outputs kl cutoff children ↔
      (c ∈ children ∧ c.is_dir = true ∧ ¬(kl = true ∧ c.name = pstr "latest") ∧
        (match parseDirDate c.name with
         | some ymd => ((toOrdinal ymd.1 ymd.2.1 ymd.2.2 : ℚ) < cutoff)
         | none => ∃ mt, c.mtime = some mt ∧ mt < cutoff)) := by
  unfold cleanup_old_outputs
  rw [List.mem_filter, cleanup_should_remove_iff]

/-- C7 (corrected): `cleanup_old_outputs` removes exactly the directory
children — `latest` excepted under `keep_latest` — whose name parses as
`YYYY-MM-DD` with a date before the cutoff, **or**, when the name does
not parse, whose known modification time is before the cutoff; `latest`
is never removed when `keep_latest` is set.  (The claim's "a directory
whose name does not parse as a date is never removed" is false: the
code falls back to the directory's mtime.) -/
theorem C7_cleanup_removal_characterization (kl : Bool) (cutoff : ℚ)
    (children : List DirEntry) :
    (∀ c : DirEntry, c ∈ cleanup_old_outputs kl cutoff children ↔
      (c ∈ children ∧ c.is_dir = true ∧ ¬(kl = true ∧ c.name = pstr "latest") ∧
        (match parseDirDate c.name with
         | some ymd => ((toOrdinal ymd.1 ymd.2.1 ymd.2.2 : ℚ) < cutoff)
         | none => ∃ mt, c.mtime = some mt ∧ mt < cutoff))) ∧
    (kl = true → ∀ c ∈ cleanup_old_outputs kl cutoff children,
      c.name ≠ pstr "latest") :=
  ⟨fun c => cleanup_mem_iff kl cutoff children c,
   fun hkl c hc hname =>
     ((cleanup_mem_iff kl cutoff children c).mp hc).2.2.1 ⟨hkl, hname⟩⟩

/-- Counterexample to C7 as stated: the directory `old_stuff`, whose
name does not parse as a date, is nevertheless removed because its
modification time is older than the cutoff. -/
theorem C7_cleanup_counterexample :
    parseDirDate (pstr "old_stuff") = none ∧
    oldStuffDir ∈ cleanup_old_outputs true 739000 [oldStuffDir] :=
  ⟨rfl, by decide⟩

/-- Witness for C7's theorem at the spec's retention scenario: the old
dated directory `2020-01-01` is removed, `latest` is not. -/
theorem C7_cleanup_removal_characterization_witness :
    datedDir ∈ cleanup_old_outputs true 739000 [datedDir, latestDir] ∧
    latestDir ∉ cleanup_old_outputs true 739000 [datedDir, latestDir] :=
  ⟨((C7_cleanup_removal_characterization true 739000 [datedDir, latestDir]).1
      datedDir).mpr
     ⟨by decide, rfl, by decide,
      (by decide : ((toOrdinal 2020 1 1 : ℚ) < 739000))⟩,
   fun hmem =>
     (((C7_cleanup_removal_characterization true 739000 [datedDir, latestDir]).1
        latestDir).mp hmem).2.2.1 ⟨rfl, rfl⟩⟩

theorem write_srt_blocks_heads (caps : List Caption) :
    ∀ n : Nat, (write_srt_blocks caps n).map (fun b => b.headD []) = srtNumbersAux caps n := by
  induction caps with
  | nil => intro n; rfl
  | cons cap rest ih =>
    intro n
    by_cases he : (pyStrip cap.text).isEmpty = true
    · simp only [write_srt_blocks, srtNumbersAux, he, if_true]
      exact ih (n + 1)
    · have he' : (pyStrip cap.text).isEmpty = false := by simpa using he
      simp only [write_srt_blocks, srtNumbersAux, he', Bool.false_eq_true, if_false,
        List.map_cons, List.headD_cons]
      rw [ih (n + 1)]

theorem srtNumbersAux_consecutive (caps : List Caption) :
    ∀ n : Nat, (∀ c ∈ caps, (pyStrip c.text).isEmpty = false) →
      srtNumbersAux caps n = (List.range caps.length).map (fun i => natStr (n + i)) := by
  induction caps with
  | nil => intro n _; rfl
  | cons cap rest ih =>
    intro n hall
    have h0 := hall cap (List.mem_cons_self cap rest)
    simp only [srtNumbersAux, h0, Bool.false_eq_true, if_false, List.length_cons]
    rw [ih (n + 1) (fun c hc => hall c (List.mem_cons_of_mem cap hc))]
    rw [List.range_succ_eq_map]
    simp only [List.map_cons, List.map_map, Nat.add_zero]
    congr 1
    apply List.map_congr_left
    intro i _
    simp only [Function.comp_apply]
    congr 1
    omega

theorem pyRound_nonneg (x : ℚ) (hx : 0 ≤ x) : 0 ≤ pyRound x := by
  have hf : (0 : ℤ) ≤ ⌊x⌋ := Int.floor_nonneg.mpr hx
  unfold pyRound
  split
  · exact hf
  · split
    · omega
    · split
      · exact hf
      · omega

/-- C9 (corrected): the sequence-number lines of `write_srt` are the
1-based input positions of the captions with non-empty stripped text,
so they are consecutive `1, 2, 3, ...` exactly when no caption is
skipped — a caption with empty stripped text leaves a gap while the
counter advances; timestamps are `HH:MM:SS,mmm` with zero-padded
minute/second/millisecond fields in range and exact millisecond
precision (`(hh*3600+mm*60+ss)*1000+ms` equals the rounded
millisecond count). -/
theorem C9_srt_numbering_and_timestamps :
    (∀ captions : List Caption,
      (write_srt_blocks captions 1).map (fun b => b.headD []) =
        srt_seq_numbers captions) ∧
    (∀ captions : List Caption,
      (∀ c ∈ captions, (pyStrip c.text).isEmpty = false) →
      srt_seq_numbers captions =
        (List.range captions.length).map (fun i => natStr (1 + i))) ∧
    (∀ q : ℚ, 0 ≤ q → ∃ hh mm ss ms : ℤ,
      _fmt_time q = fmtIntW hh 2 ++ [58] ++ fmtIntW mm 2 ++ [58] ++
        fmtIntW ss 2 ++ [44] ++ fmtIntW ms 3 ∧
      0 ≤ hh ∧ 0 ≤ mm ∧ mm < 60 ∧ 0 ≤ ss ∧ ss < 60 ∧ 0 ≤ ms ∧ ms < 1000 ∧
      (hh * 3600 + mm * 60 + ss) * 1000 + ms = pyRound (q * 1000)) := by
  refine ⟨fun captions => write_srt_blocks_heads captions 1,
          fun captions hall => srtNumbersAux_consecutive captions 1 hall, ?_⟩
  intro q hq
  have h0 : 0 ≤ pyRound (q * 1000) := pyRound_nonneg _ (by positivity)
  refine ⟨pyRound (q * 1000) / 1000 / 3600,
          pyRound (q * 1000) / 1000 % 3600 / 60,
          pyRound (q * 1000) / 1000 % 3600 % 60,
          pyRound (q * 1000) % 1000, rfl, ?_, ?_, ?_, ?_, ?_, ?_, ?_, ?_⟩ <;>
  · have e1 := Int.ediv_add_emod (pyRound (q * 1000)) 1000
    have e2 := Int.ediv_add_emod (pyRound (q * 1000) / 1000) 3600
    have e3 := Int.ediv_add_emod (pyRound (q * 1000) / 1000 % 3600) 60
    have p1 : 0 ≤ pyRound (q * 1000) % 1000 :=
      Int.emod_nonneg _ (by norm_num)
    have p2 : pyRound (q * 1000) % 1000 < 1000 :=
      Int.emod_lt_of_pos _ (by norm_num)
    have p3 : 0 ≤ pyRound (q * 1000) / 1000 % 3600 :=
      Int.emod_nonneg _ (by norm_num)
    have p4 : pyRound (q * 1000) / 1000 % 3600 < 3600 :=
      Int.emod_lt_of_pos _ (by norm_num)
    have p5 : 0 ≤ pyRound (q * 1000) / 1000 % 3600 % 60 :=
      Int.emod_nonneg _ (by norm_num)
    have p6 : pyRound (q * 1000) / 1000 % 3600 % 60 < 60 :=
      Int.emod_lt_of_pos _ (by norm_num)
    omega

/-- Counterexample to C9 as stated: with a whitespace-only middle
caption, the emitted sequence numbers are `1` and `3` — not consecutive
and with a gap. -/
theorem C9_numbering_gap_counterexample :
    srt_seq_numbers gapCaps = [pstr "1", pstr "3"] ∧
    (write_srt_blocks gapCaps 1).map (fun b => b.headD []) = [pstr "1", pstr "3"] :=
  ⟨rfl, rfl⟩

/-- Witness for C9's theorem: all-nonempty captions get consecutive
numbers, and the timestamp decomposition holds at `q = 0`. -/
theorem C9_srt_numbering_and_timestamps_witness :
    srt_seq_numbers [⟨0, 1, pstr "a"⟩] =
      (List.range ([⟨0, 1, pstr "a"⟩] : List Caption).length).map
        (fun i => natStr (1 + i)) ∧
    (∃ hh mm ss ms : ℤ,
      _fmt_time 0 = fmtIntW hh 2 ++ [58] ++ fmtIntW mm 2 ++ [58] ++
        fmtIntW ss 2 ++ [44] ++ fmtIntW ms 3 ∧
      0 ≤ hh ∧ 0 ≤ mm ∧ mm < 60 ∧ 0 ≤ ss ∧ ss < 60 ∧ 0 ≤ ms ∧ ms < 1000 ∧
      (hh * 3600 + mm * 60 + ss) * 1000 + ms = pyRound ((0 : ℚ) * 1000)) :=
  ⟨C9_srt_numbering_and_timestamps.2.1 [⟨0, 1, pstr "a"⟩] (by decide),
   C9_srt_numbering_and_timestamps.2.2 0 le_rfl⟩

theorem translate_bundle_heap_extends (h : Heap) (ba : Nat)
    (batched : Option TransObj) (tr : PyStr → PyStr) :
    ∃ ext : Heap, (translate_bundle_heap h ba batched tr).1 = h ++ ext := by
  cases batched with
  | none =>
    dsimp only [translate_bundle_heap]
    split
    · exact ⟨[], (List.append_nil h).symm⟩
    · exact ⟨_, by rw [List.append_assoc, List.append_assoc]⟩
  | some tobj =>
    dsimp only [translate_bundle_heap]
    split
    · exact ⟨[], (List.append_nil h).symm⟩
    · exact ⟨_, by rw [List.append_assoc, List.append_assoc]⟩

/-- C10: `translate_bundle` never mutates its argument: over the heap
model, every dict that existed before the call — the bundle dict, every
topic dict and every caption dict — is unchanged at its address after
the call, on the batched path, the per-field fallback path, and the
early-return path alike (the result is built from fresh copies only). -/
theorem C10_translate_bundle_no_mutation (h : Heap) (ba : Nat)
    (batched : Option TransObj) (tr : PyStr → PyStr) (i : Nat)
    (hi : i < h.length) :
    ((translate_bundle_heap h ba batched tr).1)[i]? = h[i]? := by
  obtain ⟨ext, he⟩ := translate_bundle_heap_extends h ba batched tr
  rw [he, List.getElem?_append_left hi]

/-- Witness for C10 on the concrete three-dict heap, per-field path. -/
theorem C10_translate_bundle_no_mutation_witness :
    0 < sampleHeap.length ∧
    ((translate_bundle_heap sampleHeap 2 none (fun s => s)).1)[0]? = sampleHeap[0]? :=
  ⟨by decide,
   C10_translate_bundle_no_mutation sampleHeap 2 none (fun s => s) 0 (by decide)⟩
